import Mathlib

/-!
Verification development for the QuickJS-ng WASM bridge.

This file gives a shallow embedding of the bridge's core subsystems —
the guest-side handle table and bump arena (wasm bridge C source), the
host-side execution gate (`Runtime.lock` / `Runtime.unlock`), the
evaluation and exception pipeline (`Context.Eval` / `Context.checkException`),
the callback dispatch (`Bridge.hostCallGo`), and the nil-context guards of
the public `Value` methods — and proves properties about them.

Guest-engine internals (QuickJS-ng's `JS_Eval`, `JS_IsException`,
`JS_GetException`, error-message extraction) are external collaborators of
the bridge; they are represented by abstract parameters or by an abstract
value type `JSVal` whose only structure used is the distinguished
exception marker and undefined value, exactly the structure the bridge
itself observes.
-/

/-- Abstract guest-native value (a `JSValue` of the engine). The bridge only
distinguishes the `undefined` placeholder and the exception marker; other
constructors stand for the remaining value kinds. `zeroinit` models the
zero-initialized static memory of the one slot the init loop never writes. -/
inductive JSVal where
  | undefined
  | null
  | boolean (b : Bool)
  | number (n : Int)
  | string (s : String)
  | object (id : Nat)
  | exception
  | zeroinit
deriving DecidableEq, Repr

/-- `JS_IsException` of the engine: recognizes the exception marker. -/
def JS_IsException (v : JSVal) : Bool :=
  match v with
  | JSVal.exception => true
  | _ => false

/-- `MAX_JSVALUE_SLOTS` from the C bridge: 64K slots. -/
def MAX_JSVALUE_SLOTS : Nat := 65536

/-- The guest-side handle table: per-slot stored value and `next_free` link,
plus the freelist head `first_free_slot`. Slot arrays are modelled as
functions from slot index; indices at or beyond `MAX_JSVALUE_SLOTS` are
never read by the embedded operations (they bounds-check first). -/
structure Table where
  val : Nat → JSVal
  next : Nat → Nat
  head : Nat

/-- State of the table after `init_jsvalue_slots`: the init loop links
slot `i` to `i + 1` for `i < MAX - 1`, terminates the list at the last
slot with link `0`, writes `JS_UNDEFINED` into every slot it visits
(the last slot keeps its zero-initialized contents), and sets
`first_free_slot = 1`, reserving slot `0`. -/
def init_jsvalue_slots : Table :=
  { val := fun i => if i < MAX_JSVALUE_SLOTS - 1 then JSVal.undefined else JSVal.zeroinit
    next := fun i => if i < MAX_JSVALUE_SLOTS - 1 then i + 1 else 0
    head := 1 }

/-- `store_jsvalue`: pop the freelist head, store the value there, mark the
slot in-use by zeroing its link, and return the slot index (0 on
exhaustion, with the table unchanged). -/
def store_jsvalue (t : Table) (v : JSVal) : Nat × Table :=
  if t.head = 0 then
    (0, t)
  else
    let slot := t.head
    (slot,
      { val := fun i => if i = slot then v else t.val i
        next := fun i => if i = slot then 0 else t.next i
        head := t.next slot })

/-- `load_jsvalue`: total resolution; handle `0` and out-of-range handles
resolve to `JS_UNDEFINED`. -/
def load_jsvalue (t : Table) (slot : Nat) : JSVal :=
  if slot = 0 ∨ MAX_JSVALUE_SLOTS ≤ slot then JSVal.undefined
  else t.val slot

/-- `free_jsvalue_slot`: bounds-checked push of the slot onto the freelist,
overwriting the stored value with the undefined placeholder. Note there is
no check that the slot is currently in use. -/
def free_jsvalue_slot (t : Table) (slot : Nat) : Table :=
  if slot = 0 ∨ MAX_JSVALUE_SLOTS ≤ slot then t
  else
    { val := fun i => if i = slot then JSVal.undefined else t.val i
      next := fun i => if i = slot then t.head else t.next i
      head := slot }

/-- `qjs_free_value`: the exported release entry point; guards the null
context and the zero handle, frees the engine value (an effect on the
engine heap, outside the table state) and returns the slot to the
freelist via `free_jsvalue_slot`. -/
def qjs_free_value (ctxPtr : Nat) (t : Table) (valPtr : Nat) : Table :=
  if ctxPtr = 0 ∨ valPtr = 0 then t
  else free_jsvalue_slot t valPtr

/-- `qjs_new_undefined`: allocate a fresh handle holding `JS_UNDEFINED`. -/
def qjs_new_undefined (t : Table) : Nat × Table :=
  store_jsvalue t JSVal.undefined

/-- `qjs_is_exception`: type-check a handle through total resolution,
returning the C `int32` result (1 or 0). -/
def qjs_is_exception (t : Table) (valPtr : Nat) : Nat :=
  if JS_IsException (load_jsvalue t valPtr) then 1 else 0

/-! ### Freelist specification scaffolding

`isFreeChain t s F` says the slots listed in `F` form the freelist of `t`
starting at head `s` and terminating with link `0`. It is specification
scaffolding (ghost state), not part of the embedded code. -/

/-- The freelist of table `t`, starting at `s`, is exactly the list `F`. -/
def isFreeChain (t : Table) : Nat → List Nat → Prop
  | s, [] => s = 0
  | s, x :: xs => s = x ∧ isFreeChain t (t.next x) xs

/-- Consistency invariant of the handle table relative to a ghost freelist
`F`: `F` is the chain from the head, has no duplicates, and stays within
the usable slot range (slot 0 reserved). -/
structure TableInv (t : Table) (F : List Nat) : Prop where
  chain : isFreeChain t t.head F
  nodup : F.Nodup
  range : ∀ x ∈ F, 1 ≤ x ∧ x < MAX_JSVALUE_SLOTS

/-- The freelist right after initialization: slots `1`..`65535` in order. -/
def initFreeList : List Nat := List.range' 1 (MAX_JSVALUE_SLOTS - 1)

/-- The live (in-use) slots, relative to ghost freelist `F`: all usable
slots not currently free. -/
def liveSet (F : List Nat) : Finset Nat :=
  (Finset.Ico 1 MAX_JSVALUE_SLOTS).filter (fun x => x ∉ F)

/-- One host-driven handle-table operation. -/
inductive Op where
  | alloc (v : JSVal)
  | free (h : Nat)
deriving DecidableEq

/-- Execute a sequence of handle-table operations, tracking the ghost
freelist and counting successful allocations (`A`) and releases (`R`).
A release is admitted only when it targets a currently-live handle
(nonzero, in range, not already on the freelist); otherwise the run is
rejected (`none`). Failed allocations (exhausted table) execute but are
not counted. -/
def runTrace (t : Table) (F : List Nat) (A R : Nat) : List Op → Option (Table × List Nat × Nat × Nat)
  | [] => some (t, F, A, R)
  | Op.alloc v :: ops =>
    if t.head = 0 then
      runTrace t F A R ops
    else
      runTrace (store_jsvalue t v).2 F.tail (A + 1) R ops
  | Op.free h :: ops =>
    if 1 ≤ h ∧ h < MAX_JSVALUE_SLOTS ∧ h ∉ F then
      runTrace (qjs_free_value 1 t h) (h :: F) A (R + 1) ops
    else none

/-! ### Bump arena -/

/-- `ARENA_SIZE` from the C bridge: a 4 MiB byte region. -/
def ARENA_SIZE : Nat := 4 * 1024 * 1024

/-- Word size of the 32-bit guest: `size_t` arithmetic is modulo `2^32`. -/
def U32 : Nat := 4294967296

/-- The 8-byte rounding `(size + 7) & ~7` of `arena_alloc`, performed in
32-bit `size_t` arithmetic (`~7` is `0xFFFFFFF8`). -/
def align8 (size : Nat) : Nat :=
  ((size + 7) % U32) &&& 0xFFFFFFF8

/-- `arena_alloc`: state is the current offset `arena_ptr`; returns the
offset handed to the caller and the new `arena_ptr`. If the 32-bit sum of
the offset and the rounded size exceeds the capacity, the arena is reset
to offset 0 first. All additions are `size_t` (mod `2^32`). -/
def arena_alloc (p : Nat) (size : Nat) : Nat × Nat :=
  let s := align8 size
  let p1 := if ARENA_SIZE < (p + s) % U32 then 0 else p
  (p1, (p1 + s) % U32)

/-- `qjs_alloc`: the exported allocator returns the absolute 32-bit address
`&arena[offset]` of the allocation. `base` is the link-time address of the
static `arena` array, an abstract parameter of the embedding. -/
def qjs_alloc (base p size : Nat) : Nat × Nat :=
  let r := arena_alloc p size
  ((base + r.1) % U32, r.2)

/-- `Bridge.Alloc` (Go host side): calls `qjs_alloc` and treats a returned
null pointer as the error `WASM allocation failed`. -/
def BridgeAlloc (base p size : Nat) : Except String (Nat × Nat) :=
  let r := qjs_alloc base p size
  if r.1 = 0 then Except.error "WASM allocation failed"
  else Except.ok r

/-! ### Execution gate (`Runtime.lock` / `Runtime.unlock`) -/

/-- State of the reentrant execution gate of one `Runtime`: the goroutine
id of the current holder (`0` when unlocked, as in the Go struct) and the
recursion depth. The underlying `sync.Mutex` is held exactly while
`holder` is nonzero. -/
structure Gate where
  holder : Nat
  depth : Int
deriving DecidableEq

/-- `Runtime.lock` as a transition for goroutine `gid`. If the calling
goroutine already holds the gate, only the depth is incremented (the
reentrant fast path, no blocking). If the gate is unowned, the mutex is
taken with depth 1. If another goroutine owns it, the caller would block
on the mutex: modelled as `none`. -/
def Runtime.lock (gid : Nat) (s : Gate) : Option Gate :=
  if s.holder = gid then some { s with depth := s.depth + 1 }
  else if s.holder = 0 then some { holder := gid, depth := 1 }
  else none

/-- `Runtime.unlock`: decrement the depth; exactly when it reaches zero,
clear ownership (releasing the underlying mutex). -/
def Runtime.unlock (s : Gate) : Gate :=
  if s.depth - 1 = 0 then { holder := 0, depth := 0 }
  else { s with depth := s.depth - 1 }

/-- A lock or unlock step issued by the goroutine under consideration. -/
inductive LOp where
  | lk
  | un
deriving DecidableEq

/-- Run a sequence of gate operations of one goroutine; `none` means some
lock in the sequence would block (self-deadlock for a single goroutine). -/
def runGate (gid : Nat) : Gate → List LOp → Option Gate
  | s, [] => some s
  | s, LOp.lk :: ops =>
    match Runtime.lock gid s with
    | none => none
    | some s' => runGate gid s' ops
  | s, LOp.un :: ops => runGate gid (Runtime.unlock s) ops

/-- BalancedOps (well-nested) sequences of lock/unlock operations. -/
inductive BalancedOps : List LOp → Prop
  | nil : BalancedOps []
  | wrap {l : List LOp} : BalancedOps l → BalancedOps (LOp.lk :: l ++ [LOp.un])
  | app {a b : List LOp} : BalancedOps a → BalancedOps b → BalancedOps (a ++ b)

/-! ### Evaluation and exception pipeline -/

/-- Guest machine state and engine-intrinsic behavior, as observed by the
bridge: the handle table, the context's pending exception, the engine's
evaluator `JS_Eval` (source, filename, flags to result value and new
pending exception) and the error-message extraction of
`qjs_get_error_message` (property lookup plus C-string conversion),
both abstract engine internals. -/
structure Guest where
  table : Table
  pending : JSVal
  evalFn : String → String → Int → JSVal × JSVal
  msgOf : JSVal → String

/-- `qjs_eval`: guard null context/code pointers, run the engine evaluator
and store the resulting value (which may be the exception marker) into a
fresh handle. -/
def qjs_eval (g : Guest) (ctxPtr codePtr : Nat) (code filename : String)
    (flags : Int) : Nat × Guest :=
  if ctxPtr = 0 ∨ codePtr = 0 then (0, g)
  else
    let r := g.evalFn code filename flags
    let st := store_jsvalue g.table r.1
    (st.1, { g with table := st.2, pending := r.2 })

/-- `qjs_get_exception`: store the context's pending exception into a fresh
handle; `JS_GetException` clears the pending state (to `JS_NULL`). -/
def qjs_get_exception (g : Guest) (ctxPtr : Nat) : Nat × Guest :=
  if ctxPtr = 0 then (0, g)
  else
    let st := store_jsvalue g.table g.pending
    (st.1, { g with table := st.2, pending := JSVal.null })

/-- `qjs_get_error_message` combined with the host-side buffer transport of
`Bridge.GetErrorMessage`: the net observable is the extracted message
string of the resolved error value (empty on a null context). -/
def qjs_get_error_message (g : Guest) (ctxPtr errPtr : Nat) : String :=
  if ctxPtr = 0 then ""
  else g.msgOf (load_jsvalue g.table errPtr)

/-- `Context.checkException`: if the result handle is the exception marker,
retrieve the pending exception, extract its message (falling back to
`JavaScript exception` when empty), release the exception handle and
surface the message as a host error; otherwise deliver the handle. -/
def checkException (g : Guest) (ctxPtr valPtr : Nat) : Except String Nat × Guest :=
  if qjs_is_exception g.table valPtr ≠ 0 then
    let exc := qjs_get_exception g ctxPtr
    let msg0 := qjs_get_error_message exc.2 ctxPtr exc.1
    let errMsg := if msg0 = "" then "JavaScript exception" else msg0
    (Except.error errMsg, { exc.2 with table := qjs_free_value ctxPtr exc.2.table exc.1 })
  else (Except.ok valPtr, g)

/-- `Context.EvalFile` (global-scope evaluation; `Context.Eval` is the same
with filename `<eval>`): submit the source through `qjs_eval`, then run the
result handle through `checkException`. The host-to-guest byte transport
of code and filename is summarized by the written pointers `codePtr`,
`fnamePtr`; a transport failure returns its own non-nil error before the
guest is entered. -/
def ContextEvalFile (g : Guest) (ctxPtr codePtr _fnamePtr : Nat)
    (code filename : String) : Except String Nat × Guest :=
  let r := qjs_eval g ctxPtr codePtr code filename 0
  checkException r.2 ctxPtr r.1

/-- `Context.EvalModule`: as `ContextEvalFile` but evaluating with
`JS_EVAL_TYPE_MODULE` (flag value 1). -/
def ContextEvalModule (g : Guest) (ctxPtr codePtr _fnamePtr : Nat)
    (code filename : String) : Except String Nat × Guest :=
  let r := qjs_eval g ctxPtr codePtr code filename 1
  checkException r.2 ctxPtr r.1

/-! ### Callback dispatch (`Bridge.hostCallGo`) -/

/-- The host-side callback dispatch table: a map from numeric function ids
to Go closures. A closure receives the context pointer and the argument
handles and returns a result handle, possibly allocating in the table. -/
structure Dispatch where
  callbacks : Nat → Option (Nat → List Nat → Table → Nat × Table)

/-- `Bridge.hostCallGo`: the single guest-invocable host entry point. Looks
up the function id; when absent (stale id), returns a freshly allocated
undefined handle instead of failing the guest call. The argument-vector
read from guest memory is summarized by `args`. -/
def hostCallGo (d : Dispatch) (t : Table) (ctxPtr funcID : Nat)
    (args : List Nat) : Nat × Table :=
  match d.callbacks funcID with
  | none => qjs_new_undefined t
  | some f => f ctxPtr args t

/-! ### Public `Value` methods: nil-context guards

Each public method of the Go `Value` type first checks `v.ctx == nil` and
returns a fixed default without touching the runtime; otherwise it
acquires the execution gate, performs its bridge call(s) and releases the
gate. The bridge-plus-guest computation performed inside the locked
region is abstracted by a `BridgeEnv` field per method; each method
returns its result together with the list of gate actions it performed. -/

/-- A gate action performed by a `Value` method. -/
inductive Act where
  | lock
  | unlock
deriving DecidableEq

/-- The Go `Value` struct: an optional context (pointer) and the handle. -/
structure GoValue where
  ctx : Option Nat
  ptr : Nat

/-- Abstraction of the bridge calls a non-nil `Value` method performs while
holding the gate (engine behavior, external to the claim about the nil
path). Fields correspond to the `Bridge` methods used by `Value`. -/
structure BridgeEnv where
  isUndefined : Nat → Bool
  isNull : Nat → Bool
  isBool : Nat → Bool
  isNumber : Nat → Bool
  isString : Nat → Bool
  isSymbol : Nat → Bool
  isObject : Nat → Bool
  isArray : Nat → Bool
  isError : Nat → Bool
  isBigInt : Nat → Bool
  isDate : Nat → Bool
  isFunction : Nat → Nat → Bool
  isPromise : Nat → Nat → Bool
  toStr : Nat → Nat → String
  typeofStr : Nat → Nat → String
  toBool : Nat → Nat → Bool
  toInt32 : Nat → Nat → Except String Int
  toInt64 : Nat → Nat → Except String Int
  toFloat64 : Nat → Nat → Except String Int
  toBigInt64 : Nat → Nat → Except String Int
  jsonStringify : Nat → Nat → Except String String
  getArrayBuffer : Nat → Nat → Except String (List Nat)
  getProperty : Nat → Nat → String → Except String Nat
  setProperty : Nat → Nat → String → Nat → Except String Unit
  hasProperty : Nat → Nat → String → Bool
  deleteProperty : Nat → Nat → String → Except String Unit
  getPropertyIdx : Nat → Nat → Nat → Except String Nat
  setPropertyIdx : Nat → Nat → Nat → Nat → Except String Unit
  lenOf : Nat → Nat → Nat
  callRes : Nat → Nat → Nat → List Nat → Except String Nat
  invokeRes : Nat → Nat → String → List Nat → Except String Nat
  ctorRes : Nat → Nat → List Nat → Except String Nat
  instanceofB : Nat → Nat → Nat → Bool

/-- Result of a method body that ran inside the gate. -/
def withGate {α : Type} (x : α) : α × List Act := (x, [Act.lock, Act.unlock])

/-- Result of a method body that returned before touching the gate. -/
def noGate {α : Type} (x : α) : α × List Act := (x, [])

def Value_IsUndefined (env : BridgeEnv) (v : GoValue) : Bool × List Act :=
  match v.ctx with
  | none => noGate true
  | some _ => withGate (env.isUndefined v.ptr)

def Value_IsNull (env : BridgeEnv) (v : GoValue) : Bool × List Act :=
  match v.ctx with
  | none => noGate false
  | some _ => withGate (env.isNull v.ptr)

def Value_IsBool (env : BridgeEnv) (v : GoValue) : Bool × List Act :=
  match v.ctx with
  | none => noGate false
  | some _ => withGate (env.isBool v.ptr)

def Value_IsNumber (env : BridgeEnv) (v : GoValue) : Bool × List Act :=
  match v.ctx with
  | none => noGate false
  | some _ => withGate (env.isNumber v.ptr)

def Value_IsString (env : BridgeEnv) (v : GoValue) : Bool × List Act :=
  match v.ctx with
  | none => noGate false
  | some _ => withGate (env.isString v.ptr)

def Value_IsSymbol (env : BridgeEnv) (v : GoValue) : Bool × List Act :=
  match v.ctx with
  | none => noGate false
  | some _ => withGate (env.isSymbol v.ptr)

def Value_IsObject (env : BridgeEnv) (v : GoValue) : Bool × List Act :=
  match v.ctx with
  | none => noGate false
  | some _ => withGate (env.isObject v.ptr)

def Value_IsArray (env : BridgeEnv) (v : GoValue) : Bool × List Act :=
  match v.ctx with
  | none => noGate false
  | some _ => withGate (env.isArray v.ptr)

def Value_IsFunction (env : BridgeEnv) (v : GoValue) : Bool × List Act :=
  match v.ctx with
  | none => noGate false
  | some c => withGate (env.isFunction c v.ptr)

def Value_IsError (env : BridgeEnv) (v : GoValue) : Bool × List Act :=
  match v.ctx with
  | none => noGate false
  | some _ => withGate (env.isError v.ptr)

def Value_IsBigInt (env : BridgeEnv) (v : GoValue) : Bool × List Act :=
  match v.ctx with
  | none => noGate false
  | some _ => withGate (env.isBigInt v.ptr)

def Value_IsDate (env : BridgeEnv) (v : GoValue) : Bool × List Act :=
  match v.ctx with
  | none => noGate false
  | some _ => withGate (env.isDate v.ptr)

def Value_IsPromise (env : BridgeEnv) (v : GoValue) : Bool × List Act :=
  match v.ctx with
  | none => noGate false
  | some c => withGate (env.isPromise c v.ptr)

def Value_String (env : BridgeEnv) (v : GoValue) : String × List Act :=
  match v.ctx with
  | none => noGate "undefined"
  | some c => withGate (env.toStr c v.ptr)

def Value_Bool (env : BridgeEnv) (v : GoValue) : Bool × List Act :=
  match v.ctx with
  | none => noGate false
  | some c => withGate (env.toBool c v.ptr)

def Value_Int32 (env : BridgeEnv) (v : GoValue) : Except String Int × List Act :=
  match v.ctx with
  | none => noGate (Except.error "nil value")
  | some c => withGate (env.toInt32 c v.ptr)

def Value_Int64 (env : BridgeEnv) (v : GoValue) : Except String Int × List Act :=
  match v.ctx with
  | none => noGate (Except.error "nil value")
  | some c => withGate (env.toInt64 c v.ptr)

def Value_Float64 (env : BridgeEnv) (v : GoValue) : Except String Int × List Act :=
  match v.ctx with
  | none => noGate (Except.error "nil value")
  | some c => withGate (env.toFloat64 c v.ptr)

def Value_BigInt (env : BridgeEnv) (v : GoValue) : Except String Int × List Act :=
  match v.ctx with
  | none => noGate (Except.error "nil value")
  | some c => withGate (env.toBigInt64 c v.ptr)

def Value_JSONStringify (env : BridgeEnv) (v : GoValue) : Except String String × List Act :=
  match v.ctx with
  | none => noGate (Except.error "nil value")
  | some c => withGate (env.jsonStringify c v.ptr)

def Value_Bytes (env : BridgeEnv) (v : GoValue) : Except String (List Nat) × List Act :=
  match v.ctx with
  | none => noGate (Except.error "nil value")
  | some c => withGate (env.getArrayBuffer c v.ptr)

def Value_Typeof (env : BridgeEnv) (v : GoValue) : String × List Act :=
  match v.ctx with
  | none => noGate "undefined"
  | some c => withGate (env.typeofStr c v.ptr)

def Value_Get (env : BridgeEnv) (v : GoValue) (prop : String) :
    Except String GoValue × List Act :=
  match v.ctx with
  | none => noGate (Except.error "nil value")
  | some c => withGate ((env.getProperty c v.ptr prop).map fun p => GoValue.mk (some c) p)

def Value_Set (env : BridgeEnv) (v : GoValue) (prop : String) (w : GoValue) :
    Except String Unit × List Act :=
  match v.ctx with
  | none => noGate (Except.error "nil value")
  | some c => withGate (env.setProperty c v.ptr prop w.ptr)

def Value_Has (env : BridgeEnv) (v : GoValue) (prop : String) : Bool × List Act :=
  match v.ctx with
  | none => noGate false
  | some c => withGate (env.hasProperty c v.ptr prop)

def Value_Delete (env : BridgeEnv) (v : GoValue) (prop : String) :
    Except String Unit × List Act :=
  match v.ctx with
  | none => noGate (Except.error "nil value")
  | some c => withGate (env.deleteProperty c v.ptr prop)

def Value_GetIdx (env : BridgeEnv) (v : GoValue) (idx : Nat) :
    Except String GoValue × List Act :=
  match v.ctx with
  | none => noGate (Except.error "nil value")
  | some c => withGate ((env.getPropertyIdx c v.ptr idx).map fun p => GoValue.mk (some c) p)

def Value_SetIdx (env : BridgeEnv) (v : GoValue) (idx : Nat) (w : GoValue) :
    Except String Unit × List Act :=
  match v.ctx with
  | none => noGate (Except.error "nil value")
  | some c => withGate (env.setPropertyIdx c v.ptr idx w.ptr)

def Value_Len (env : BridgeEnv) (v : GoValue) : Nat × List Act :=
  match v.ctx with
  | none => noGate 0
  | some c => withGate (env.lenOf c v.ptr)

def Value_Call (env : BridgeEnv) (v this : GoValue) (args : List GoValue) :
    Except String GoValue × List Act :=
  match v.ctx with
  | none => noGate (Except.error "nil value")
  | some c =>
    withGate ((env.callRes c v.ptr this.ptr (args.map GoValue.ptr)).map
      fun p => GoValue.mk (some c) p)

def Value_CallMethod (env : BridgeEnv) (v : GoValue) (method : String)
    (args : List GoValue) : Except String GoValue × List Act :=
  match v.ctx with
  | none => noGate (Except.error "nil value")
  | some c =>
    withGate ((env.invokeRes c v.ptr method (args.map GoValue.ptr)).map
      fun p => GoValue.mk (some c) p)

def Value_New (env : BridgeEnv) (v : GoValue) (args : List GoValue) :
    Except String GoValue × List Act :=
  match v.ctx with
  | none => noGate (Except.error "nil value")
  | some c =>
    withGate ((env.ctorRes c v.ptr (args.map GoValue.ptr)).map
      fun p => GoValue.mk (some c) p)

def Value_Instanceof (env : BridgeEnv) (v ctor : GoValue) : Bool × List Act :=
  match v.ctx with
  | none => noGate false
  | some c => withGate (env.instanceofB c v.ptr ctor.ptr)

/-! ### Handle-table lemmas -/

/-- A freelist chain only depends on the links of its own members. -/
theorem isFreeChain_congr {t t' : Table} :
    ∀ {F : List Nat} {s : Nat}, (∀ x ∈ F, t'.next x = t.next x) →
      isFreeChain t s F → isFreeChain t' s F := by
  intro F
  induction F with
  | nil => intro s _ hc; exact hc
  | cons x xs ih =>
    intro s hagree hc
    obtain ⟨hs, hrest⟩ := hc
    refine ⟨hs, ?_⟩
    rw [hagree x (List.mem_cons_self x xs)]
    exact ih (fun y hy => hagree y (List.mem_cons_of_mem x hy)) hrest

/-- Successful allocation: with a nonempty ghost freelist, `store_jsvalue`
returns the freelist head, stores the value there, and preserves the
invariant for the popped freelist. -/
theorem store_pop {t : Table} {f : Nat} {F : List Nat} (v : JSVal)
    (hInv : TableInv t (f :: F)) :
    (store_jsvalue t v).1 = f ∧ TableInv (store_jsvalue t v).2 F ∧
      (store_jsvalue t v).2.val f = v := by
  have hchain : t.head = f ∧ isFreeChain t (t.next f) F := hInv.chain
  have hf : 1 ≤ f ∧ f < MAX_JSVALUE_SLOTS :=
    hInv.range f (List.mem_cons_self f F)
  have hne : t.head ≠ 0 := by omega
  have hfF : f ∉ F := (List.nodup_cons.mp hInv.nodup).1
  simp only [store_jsvalue, if_neg hne]
  refine ⟨hchain.1, ⟨?_, (List.nodup_cons.mp hInv.nodup).2, ?_⟩, ?_⟩
  · show isFreeChain _ (t.next t.head) F
    rw [hchain.1]
    refine isFreeChain_congr (fun y hy => ?_) hchain.2
    have hyf : y ≠ f := fun h => hfF (h ▸ hy)
    simp [hchain.1, hyf]
  · intro x hx
    exact hInv.range x (List.mem_cons_of_mem f hx)
  · simp [hchain.1]

/-- Releasing a live (not currently free) in-range slot pushes it onto the
freelist and preserves the invariant. -/
theorem free_push {t : Table} {h : Nat} {F : List Nat}
    (hInv : TableInv t F) (h1 : 1 ≤ h) (h2 : h < MAX_JSVALUE_SLOTS)
    (h3 : h ∉ F) : TableInv (free_jsvalue_slot t h) (h :: F) := by
  have hne : ¬(h = 0 ∨ MAX_JSVALUE_SLOTS ≤ h) := by omega
  simp only [free_jsvalue_slot, if_neg hne]
  refine ⟨⟨rfl, ?_⟩, List.nodup_cons.mpr ⟨h3, hInv.nodup⟩, ?_⟩
  · show isFreeChain _ (if h = h then t.head else t.next h) F
    simp only [if_pos rfl]
    refine isFreeChain_congr (fun y hy => ?_) hInv.chain
    have : y ≠ h := fun he => h3 (he ▸ hy)
    simp only [if_neg this]
  · intro x hx
    rcases List.mem_cons.mp hx with hxh | hxF
    · omega
    · exact hInv.range x hxF

/-- Freeing a live slot shrinks the live set by exactly one. -/
theorem liveSet_cons_card {h : Nat} {F : List Nat} (h1 : 1 ≤ h)
    (h2 : h < MAX_JSVALUE_SLOTS) (h3 : h ∉ F) :
    (liveSet (h :: F)).card + 1 = (liveSet F).card := by
  have he : liveSet (h :: F) = (liveSet F).erase h := by
    ext x
    simp only [liveSet, Finset.mem_filter, Finset.mem_erase, Finset.mem_Ico,
      List.mem_cons]
    constructor
    · rintro ⟨hx, hnx⟩
      push_neg at hnx
      exact ⟨hnx.1, hx, hnx.2⟩
    · rintro ⟨hxe, hx, hnx⟩
      exact ⟨hx, by tauto⟩
  rw [he]
  apply Finset.card_erase_add_one
  simp only [liveSet, Finset.mem_filter, Finset.mem_Ico]
  exact ⟨⟨h1, h2⟩, h3⟩

/-- The initialized table's link structure is the chain `s, s+1, ..., 65535`
for every usable start slot `s`. -/
theorem isFreeChain_of_init : ∀ (n s : Nat), 1 ≤ s →
    s + (n + 1) = MAX_JSVALUE_SLOTS →
    isFreeChain init_jsvalue_slots s (List.range' s (n + 1)) := by
  intro n
  induction n with
  | zero =>
    intro s h1 h2
    have hs : s = 65535 := by
      have : MAX_JSVALUE_SLOTS = 65536 := rfl
      omega
    subst hs
    exact ⟨rfl, rfl⟩
  | succ n ih =>
    intro s h1 h2
    have hM : MAX_JSVALUE_SLOTS = 65536 := rfl
    refine ⟨rfl, ?_⟩
    have hnext : init_jsvalue_slots.next s = s + 1 := by
      simp only [init_jsvalue_slots]
      rw [if_pos (by omega)]
    rw [hnext]
    exact ih (s + 1) (by omega) (by omega)

/-- The initialized table satisfies the invariant with freelist
`1, ..., 65535`. -/
theorem tableInv_init : TableInv init_jsvalue_slots initFreeList := by
  refine ⟨?_, ?_, ?_⟩
  · show isFreeChain init_jsvalue_slots 1 initFreeList
    have : initFreeList = List.range' 1 (65534 + 1) := rfl
    rw [this]
    exact isFreeChain_of_init 65534 1 (by omega) rfl
  · exact List.nodup_range' 1 _
  · intro x hx
    have := List.mem_range'_1.mp hx
    simpa [MAX_JSVALUE_SLOTS] using this

/-- An admitted run preserves the table invariant, and the live count moves
in lockstep with successful allocations minus releases. -/
theorem runTrace_inv : ∀ (ops : List Op) (t : Table) (F : List Nat) (A R : Nat)
    (t' : Table) (F' : List Nat) (A' R' : Nat),
    TableInv t F → runTrace t F A R ops = some (t', F', A', R') →
    TableInv t' F' ∧ (liveSet F').card + R' + A = (liveSet F).card + A' + R := by
  intro ops
  induction ops with
  | nil =>
    intro t F A R t' F' A' R' hInv hrun
    simp only [runTrace, Option.some.injEq, Prod.mk.injEq] at hrun
    obtain ⟨h1, h2, h3, h4⟩ := hrun
    subst h1 h2 h3 h4
    exact ⟨hInv, by omega⟩
  | cons op ops ih =>
    intro t F A R t' F' A' R' hInv hrun
    cases op with
    | alloc v =>
      by_cases hh : t.head = 0
      · rw [runTrace, if_pos hh] at hrun
        exact ih t F A R t' F' A' R' hInv hrun
      · rw [runTrace, if_neg hh] at hrun
        cases F with
        | nil => exact absurd hInv.chain hh
        | cons f F2 =>
          obtain ⟨hpop, hInv2, hval⟩ := store_pop v hInv
          have hf := hInv.range f (List.mem_cons_self f F2)
          have hfF : f ∉ F2 := (List.nodup_cons.mp hInv.nodup).1
          obtain ⟨hI, hc⟩ := ih _ _ _ _ t' F' A' R' hInv2 hrun
          have hcard := liveSet_cons_card hf.1 hf.2 hfF
          exact ⟨hI, by omega⟩
    | free h =>
      by_cases hg : 1 ≤ h ∧ h < MAX_JSVALUE_SLOTS ∧ h ∉ F
      · rw [runTrace, if_pos hg] at hrun
        have hqf : qjs_free_value 1 t h = free_jsvalue_slot t h := by
          simp only [qjs_free_value]
          rw [if_neg (by omega)]
        rw [hqf] at hrun
        have hInv2 := free_push hInv hg.1 hg.2.1 hg.2.2
        obtain ⟨hI, hc⟩ := ih _ _ _ _ t' F' A' R' hInv2 hrun
        have hcard := liveSet_cons_card hg.1 hg.2.1 hg.2.2
        exact ⟨hI, by omega⟩
      · rw [runTrace, if_neg hg] at hrun
        exact absurd hrun (by simp)

/-- A live slot's stored value survives any admitted run that never
releases that slot. -/
theorem runTrace_keeps_live : ∀ (ops : List Op) (t : Table) (F : List Nat)
    (A R : Nat) (t' : Table) (F' : List Nat) (A' R' : Nat) (h : Nat) (v : JSVal),
    TableInv t F → 1 ≤ h → h < MAX_JSVALUE_SLOTS → h ∉ F → t.val h = v →
    Op.free h ∉ ops → runTrace t F A R ops = some (t', F', A', R') →
    TableInv t' F' ∧ h ∉ F' ∧ t'.val h = v := by
  intro ops
  induction ops with
  | nil =>
    intro t F A R t' F' A' R' h v hInv h1 h2 h3 hval _ hrun
    simp only [runTrace, Option.some.injEq, Prod.mk.injEq] at hrun
    obtain ⟨e1, e2, _, _⟩ := hrun
    subst e1 e2
    exact ⟨hInv, h3, hval⟩
  | cons op ops ih =>
    intro t F A R t' F' A' R' h v hInv h1 h2 h3 hval hnf hrun
    have hnf2 : Op.free h ∉ ops := fun hm => hnf (List.mem_cons_of_mem op hm)
    cases op with
    | alloc w =>
      by_cases hh : t.head = 0
      · rw [runTrace, if_pos hh] at hrun
        exact ih t F A R t' F' A' R' h v hInv h1 h2 h3 hval hnf2 hrun
      · rw [runTrace, if_neg hh] at hrun
        cases F with
        | nil => exact absurd hInv.chain hh
        | cons f F2 =>
          obtain ⟨hpop, hInv2, _⟩ := store_pop w hInv
          have hhf : h ≠ f := fun he => h3 (he ▸ List.mem_cons_self f F2)
          have hval2 : (store_jsvalue t w).2.val h = v := by
            have hhead : t.head = f := hInv.chain.1
            simp only [store_jsvalue, if_neg hh]
            simp [hhead, hhf, hval]
          have h3' : h ∉ F2 := fun hm => h3 (List.mem_cons_of_mem f hm)
          exact ih _ _ _ _ t' F' A' R' h v hInv2 h1 h2 h3' hval2 hnf2 hrun
    | free g =>
      by_cases hg : 1 ≤ g ∧ g < MAX_JSVALUE_SLOTS ∧ g ∉ F
      · rw [runTrace, if_pos hg] at hrun
        have hgh : g ≠ h := by
          intro he
          exact hnf (by rw [he]; exact List.mem_cons_self _ _)
        have hqf : qjs_free_value 1 t g = free_jsvalue_slot t g := by
          simp only [qjs_free_value]
          rw [if_neg (by omega)]
        rw [hqf] at hrun
        have hInv2 := free_push hInv hg.1 hg.2.1 hg.2.2
        have hval2 : (free_jsvalue_slot t g).val h = v := by
          have hhg : h ≠ g := fun he => hgh he.symm
          simp only [free_jsvalue_slot]
          rw [if_neg (by omega)]
          simp [hhg, hval]
        have h3' : h ∉ g :: F := by
          intro hm
          rcases List.mem_cons.mp hm with he | hm2
          · exact hgh he.symm
          · exact h3 hm2
        exact ih _ _ _ _ t' F' A' R' h v hInv2 h1 h2 h3' hval2 hnf2 hrun
      · rw [runTrace, if_neg hg] at hrun
        exact absurd hrun (by simp)

/-! ### Execution-gate lemmas -/

/-- Gate runs compose over list append. -/
theorem runGate_append (gid : Nat) : ∀ (a b : List LOp) (s : Gate),
    runGate gid s (a ++ b) = (runGate gid s a).bind fun s' => runGate gid s' b := by
  intro a
  induction a with
  | nil => intro b s; rfl
  | cons o os ih =>
    intro b s
    cases o with
    | lk =>
      rw [List.cons_append]
      show (match Runtime.lock gid s with
        | none => none
        | some s' => runGate gid s' (os ++ b)) =
        (match Runtime.lock gid s with
        | none => none
        | some s' => runGate gid s' os).bind fun s' => runGate gid s' b
      cases Runtime.lock gid s with
      | none => rfl
      | some s' => exact ih b s'
    | un =>
      rw [List.cons_append]
      show runGate gid (Runtime.unlock s) (os ++ b) = _
      exact ih b (Runtime.unlock s)

/-- A balanced sequence run by the goroutine that owns the gate never
blocks (every lock takes the reentrant fast path) and restores the
entry state. -/
theorem runGate_owned {ops : List LOp} (hbal : BalancedOps ops) :
    ∀ (gid : Nat) (d : Int), 1 ≤ d →
      runGate gid { holder := gid, depth := d } ops =
        some { holder := gid, depth := d } := by
  induction hbal with
  | nil => intro gid d _; rfl
  | @wrap l hl ih =>
    intro gid d hd
    have hlk : Runtime.lock gid { holder := gid, depth := d } =
        some { holder := gid, depth := d + 1 } := by
      simp [Runtime.lock]
    have step : runGate gid { holder := gid, depth := d } (LOp.lk :: l) =
        runGate gid { holder := gid, depth := d + 1 } l := by
      show (match Runtime.lock gid { holder := gid, depth := d } with
        | none => none
        | some s' => runGate gid s' l) = _
      rw [hlk]
    rw [runGate_append gid (LOp.lk :: l) [LOp.un], step, ih gid (d + 1) (by omega)]
    show some (Runtime.unlock { holder := gid, depth := d + 1 }) =
      some { holder := gid, depth := d }
    have hun : Runtime.unlock { holder := gid, depth := d + 1 } =
        { holder := gid, depth := d } := by
      simp only [Runtime.unlock]
      rw [if_neg (by omega)]
      simp
    rw [hun]
  | @app a b ha hb iha ihb =>
    intro gid d hd
    rw [runGate_append, iha gid d hd]
    exact ihb gid d hd

/-- From the unowned state, a nonzero goroutine completes any balanced
sequence without blocking and returns the gate to the unowned state with
depth zero. -/
theorem runGate_balanced {ops : List LOp} (hbal : BalancedOps ops)
    (gid : Nat) (hg : gid ≠ 0) :
    runGate gid { holder := 0, depth := 0 } ops =
      some { holder := 0, depth := 0 } := by
  induction hbal with
  | nil => rfl
  | @wrap l hl ih =>
    have h0 : (0 : Nat) ≠ gid := fun he => hg he.symm
    have hlk : Runtime.lock gid { holder := 0, depth := 0 } =
        some { holder := gid, depth := 1 } := by
      simp [Runtime.lock, h0]
    have step : runGate gid { holder := 0, depth := 0 } (LOp.lk :: l) =
        runGate gid { holder := gid, depth := 1 } l := by
      show (match Runtime.lock gid { holder := 0, depth := 0 } with
        | none => none
        | some s' => runGate gid s' l) = _
      rw [hlk]
    rw [runGate_append gid (LOp.lk :: l) [LOp.un], step, runGate_owned hl gid 1 (by omega)]
    show some (Runtime.unlock { holder := gid, depth := 1 }) =
      some { holder := 0, depth := 0 }
    have hun : Runtime.unlock { holder := gid, depth := 1 } =
        { holder := 0, depth := 0 } := by
      simp [Runtime.unlock]
    rw [hun]
  | @app a b ha hb iha ihb =>
    rw [runGate_append, iha]
    exact ihb

/-! ### Arena lemmas -/

/-- The rounded size fits in a 32-bit word. -/
theorem align8_lt_U32 (size : Nat) : align8 size < U32 :=
  lt_of_le_of_lt (Nat.and_le_left) (Nat.mod_lt _ (by simp [U32]))

/-- The 8-byte rounding indeed produces multiples of 8. -/
theorem align8_mod8 (size : Nat) : align8 size % 8 = 0 := by
  show align8 size % 2 ^ 3 = 0
  rw [← Nat.and_pow_two_sub_one_eq_mod]
  show (((size + 7) % U32) &&& 0xFFFFFFF8) &&& 7 = 0
  rw [Nat.land_assoc]
  have : (0xFFFFFFF8 : Nat) &&& 7 = 0 := by decide
  rw [this]
  simp

/-- Closed form of `arena_alloc`: reset-and-bump or plain bump. -/
theorem arena_alloc_eq (p size : Nat) :
    arena_alloc p size =
      if ARENA_SIZE < (p + align8 size) % U32 then (0, align8 size % U32)
      else (p, (p + align8 size) % U32) := by
  simp only [arena_alloc]
  split
  · simp
  · rfl

/-- Right after initialization no slot is live. -/
theorem liveSet_initFreeList : (liveSet initFreeList).card = 0 := by
  rw [Finset.card_eq_zero]
  ext x
  simp only [liveSet, initFreeList, Finset.mem_filter, Finset.mem_Ico,
    List.mem_range'_1, Finset.not_mem_empty, iff_false]
  rintro ⟨⟨h1, h2⟩, hn⟩
  exact hn ⟨h1, by simpa [MAX_JSVALUE_SLOTS] using h2⟩

/-- When the result handle is the exception marker, `checkException`
produces a nonempty host error: the extracted message or the fallback. -/
theorem checkException_error (g : Guest) (ctxPtr valPtr : Nat)
    (hexc : qjs_is_exception g.table valPtr ≠ 0) :
    ∃ msg, (checkException g ctxPtr valPtr).1 = Except.error msg ∧ msg ≠ "" ∧
      msg = (if qjs_get_error_message (qjs_get_exception g ctxPtr).2 ctxPtr
              (qjs_get_exception g ctxPtr).1 = ""
             then "JavaScript exception"
             else qjs_get_error_message (qjs_get_exception g ctxPtr).2 ctxPtr
              (qjs_get_exception g ctxPtr).1) ∧
      ∀ h, (checkException g ctxPtr valPtr).1 ≠ Except.ok h := by
  simp only [checkException, if_pos hexc]
  by_cases hm : qjs_get_error_message (qjs_get_exception g ctxPtr).2 ctxPtr
      (qjs_get_exception g ctxPtr).1 = ""
  · refine ⟨"JavaScript exception", ?_, by simp, by simp [hm], by simp⟩
    simp [hm]
  · refine ⟨_, ?_, hm, by simp [hm], by simp⟩
    simp [hm]

/-! ### Claims -/

/-- C1: for every evaluation submitted through the pipeline
(`Context.Eval` / `EvalFile` / `EvalModule`, and every path through
`Context.checkException`), if the handle returned by the guest evaluate
entry point is an exception marker, the host caller receives a non-nil
error — the guest's extracted message, or the fallback
`JavaScript exception` when that message is empty — and never a
zero-valued success. -/
theorem C1_exception_never_dropped :
    (∀ (g : Guest) (ctxPtr valPtr : Nat), qjs_is_exception g.table valPtr ≠ 0 →
      ∃ msg, (checkException g ctxPtr valPtr).1 = Except.error msg ∧ msg ≠ "" ∧
        msg = (if qjs_get_error_message (qjs_get_exception g ctxPtr).2 ctxPtr
                (qjs_get_exception g ctxPtr).1 = ""
               then "JavaScript exception"
               else qjs_get_error_message (qjs_get_exception g ctxPtr).2 ctxPtr
                (qjs_get_exception g ctxPtr).1) ∧
        ∀ h, (checkException g ctxPtr valPtr).1 ≠ Except.ok h) ∧
    (∀ (g : Guest) (ctxPtr codePtr fnamePtr : Nat) (code filename : String),
      qjs_is_exception (qjs_eval g ctxPtr codePtr code filename 0).2.table
        (qjs_eval g ctxPtr codePtr code filename 0).1 ≠ 0 →
      ∃ msg, (ContextEvalFile g ctxPtr codePtr fnamePtr code filename).1 =
          Except.error msg ∧ msg ≠ "" ∧
        ∀ h, (ContextEvalFile g ctxPtr codePtr fnamePtr code filename).1 ≠
          Except.ok h) ∧
    (∀ (g : Guest) (ctxPtr codePtr fnamePtr : Nat) (code filename : String),
      qjs_is_exception (qjs_eval g ctxPtr codePtr code filename 1).2.table
        (qjs_eval g ctxPtr codePtr code filename 1).1 ≠ 0 →
      ∃ msg, (ContextEvalModule g ctxPtr codePtr fnamePtr code filename).1 =
          Except.error msg ∧ msg ≠ "" ∧
        ∀ h, (ContextEvalModule g ctxPtr codePtr fnamePtr code filename).1 ≠
          Except.ok h) := by
  refine ⟨checkException_error, ?_, ?_⟩
  · intro g ctxPtr codePtr fnamePtr code filename hexc
    obtain ⟨msg, h1, h2, _, h4⟩ :=
      checkException_error (qjs_eval g ctxPtr codePtr code filename 0).2 ctxPtr
        (qjs_eval g ctxPtr codePtr code filename 0).1 hexc
    exact ⟨msg, h1, h2, h4⟩
  · intro g ctxPtr codePtr fnamePtr code filename hexc
    obtain ⟨msg, h1, h2, _, h4⟩ :=
      checkException_error (qjs_eval g ctxPtr codePtr code filename 1).2 ctxPtr
        (qjs_eval g ctxPtr codePtr code filename 1).1 hexc
    exact ⟨msg, h1, h2, h4⟩

/-- C1 witness: a concrete guest whose evaluator throws. The exception
marker is detected and both `checkException` and the two evaluation
entry points surface a non-nil, nonempty error. -/
theorem C1_witness :
    (∃ msg, (checkException
        ⟨⟨fun _ => JSVal.exception, fun _ => 0, 1⟩, JSVal.exception,
         fun _ _ _ => (JSVal.exception, JSVal.exception), fun _ => ""⟩ 1 2).1 =
        Except.error msg ∧ msg ≠ "") ∧
    (∃ msg, (ContextEvalFile
        ⟨⟨fun _ => JSVal.exception, fun _ => 0, 1⟩, JSVal.exception,
         fun _ _ _ => (JSVal.exception, JSVal.exception), fun _ => ""⟩ 1 1 1 "throw 0" "f").1 =
        Except.error msg ∧ msg ≠ "") ∧
    (∃ msg, (ContextEvalModule
        ⟨⟨fun _ => JSVal.exception, fun _ => 0, 1⟩, JSVal.exception,
         fun _ _ _ => (JSVal.exception, JSVal.exception), fun _ => ""⟩ 1 1 1 "throw 0" "m").1 =
        Except.error msg ∧ msg ≠ "") := by
  refine ⟨?_, ?_, ?_⟩
  · obtain ⟨msg, h1, h2, _, _⟩ := C1_exception_never_dropped.1
      ⟨⟨fun _ => JSVal.exception, fun _ => 0, 1⟩, JSVal.exception,
       fun _ _ _ => (JSVal.exception, JSVal.exception), fun _ => ""⟩ 1 2 (by decide)
    exact ⟨msg, h1, h2⟩
  · obtain ⟨msg, h1, h2, _⟩ := C1_exception_never_dropped.2.1
      ⟨⟨fun _ => JSVal.exception, fun _ => 0, 1⟩, JSVal.exception,
       fun _ _ _ => (JSVal.exception, JSVal.exception), fun _ => ""⟩ 1 1 1 "throw 0" "f"
      (by decide)
    exact ⟨msg, h1, h2⟩
  · obtain ⟨msg, h1, h2, _⟩ := C1_exception_never_dropped.2.2
      ⟨⟨fun _ => JSVal.exception, fun _ => 0, 1⟩, JSVal.exception,
       fun _ _ _ => (JSVal.exception, JSVal.exception), fun _ => ""⟩ 1 1 1 "throw 0" "m"
      (by decide)
    exact ⟨msg, h1, h2⟩

/-- C2 counterexample: the claim fails for an already-released handle.
Allocate slot 1, release it (slot 1 is now on the freelist with link 2),
then release it again: the second release rewires slot 1's link to 1 and
moves the freelist head, so the table state changes — not a no-op. -/
theorem C2_counterexample :
    (qjs_free_value 1
      (qjs_free_value 1 (store_jsvalue init_jsvalue_slots JSVal.null).2 1) 1).next 1 = 1 ∧
    (qjs_free_value 1 (store_jsvalue init_jsvalue_slots JSVal.null).2 1).next 1 = 2 ∧
    qjs_free_value 1
      (qjs_free_value 1 (store_jsvalue init_jsvalue_slots JSVal.null).2 1) 1 ≠
      qjs_free_value 1 (store_jsvalue init_jsvalue_slots JSVal.null).2 1 := by
  refine ⟨by decide, by decide, fun he => ?_⟩
  exact absurd (congrArg (fun t => t.next 1) he) (by decide)

/-- C2 (amended): releasing handle 0, an out-of-range handle, or releasing
through a null context leaves the handle-table state unchanged (a no-op,
not an error). Releasing an in-range handle whose slot is already on the
freelist is not a no-op: it pushes the slot onto the freelist again,
corrupting the freelist (see the counterexample). -/
theorem C2_release_invalid_noop (ctxPtr : Nat) (t : Table) (h : Nat)
    (hcase : ctxPtr = 0 ∨ h = 0 ∨ MAX_JSVALUE_SLOTS ≤ h) :
    qjs_free_value ctxPtr t h = t := by
  rcases hcase with hc | hc | hc
  · simp [qjs_free_value, hc]
  · simp [qjs_free_value, hc]
  · simp only [qjs_free_value]
    split
    · rfl
    · rw [free_jsvalue_slot, if_pos (Or.inr hc)]

/-- C2 witness: the zero handle, an out-of-range handle and a null context
are each left exactly as they were. -/
theorem C2_witness :
    qjs_free_value 1 init_jsvalue_slots 0 = init_jsvalue_slots ∧
    qjs_free_value 1 init_jsvalue_slots 70000 = init_jsvalue_slots ∧
    qjs_free_value 0 init_jsvalue_slots 5 = init_jsvalue_slots :=
  ⟨C2_release_invalid_noop 1 init_jsvalue_slots 0 (Or.inr (Or.inl rfl)),
   C2_release_invalid_noop 1 init_jsvalue_slots 70000 (Or.inr (Or.inr (by decide))),
   C2_release_invalid_noop 0 init_jsvalue_slots 5 (Or.inl rfl)⟩

/-- C3 counterexample: the claim fails for sequences containing an invalid
release. From the initialized table, release the (already free) slot 1,
then allocate twice: both allocations succeed and both return the same
non-zero handle 1, with no release in between — the same handle is handed
to two live values. -/
theorem C3_counterexample :
    (store_jsvalue (qjs_free_value 1 init_jsvalue_slots 1) JSVal.null).1 = 1 ∧
    (store_jsvalue
      (store_jsvalue (qjs_free_value 1 init_jsvalue_slots 1) JSVal.null).2
      (JSVal.boolean true)).1 = 1 := by
  exact ⟨by decide, by decide⟩

/-- C3 (amended): for every finite sequence of allocations and releases
starting from the initialized table in which every release targets a
currently-live handle (in range, allocated, not yet released), the table
invariant is maintained, the number of live slots always equals successful
allocations minus releases, and every successful allocation returns a
handle that was not live before it (so no non-zero handle is ever mapped
to two live values simultaneously). -/
theorem C3_no_double_alloc :
    (∀ (ops : List Op) (t' : Table) (F' : List Nat) (A' R' : Nat),
      runTrace init_jsvalue_slots initFreeList 0 0 ops = some (t', F', A', R') →
      TableInv t' F' ∧ (liveSet F').card + R' = A') ∧
    (∀ (t : Table) (F : List Nat) (v : JSVal), TableInv t F →
      (store_jsvalue t v).1 ≠ 0 →
      (store_jsvalue t v).1 ∉ liveSet F ∧ (store_jsvalue t v).1 ∈ liveSet F.tail) := by
  constructor
  · intro ops t' F' A' R' hrun
    obtain ⟨hI, hc⟩ := runTrace_inv ops init_jsvalue_slots initFreeList 0 0
      t' F' A' R' tableInv_init hrun
    have h0 := liveSet_initFreeList
    exact ⟨hI, by omega⟩
  · intro t F v hInv hne
    have hh : t.head ≠ 0 := by
      intro h0
      apply hne
      simp [store_jsvalue, h0]
    cases F with
    | nil => exact absurd hInv.chain hh
    | cons f F2 =>
      obtain ⟨hpop, _, _⟩ := store_pop v hInv
      rw [hpop]
      have hf := hInv.range f (List.mem_cons_self f F2)
      have hfF : f ∉ F2 := (List.nodup_cons.mp hInv.nodup).1
      constructor
      · simp only [liveSet, Finset.mem_filter, Finset.mem_Ico]
        rintro ⟨_, hnf⟩
        exact hnf (List.mem_cons_self f F2)
      · show f ∈ liveSet F2
        simp only [liveSet, Finset.mem_filter, Finset.mem_Ico]
        exact ⟨⟨hf.1, hf.2⟩, hfF⟩

/-- C3 witness: the empty run from the initialized table preserves the
invariant with zero live slots, and the first allocation returns a handle
(slot 1) that was not live beforehand. -/
theorem C3_witness :
    (TableInv init_jsvalue_slots initFreeList ∧
      (liveSet initFreeList).card + 0 = 0) ∧
    ((store_jsvalue init_jsvalue_slots JSVal.null).1 ∉ liveSet initFreeList ∧
      (store_jsvalue init_jsvalue_slots JSVal.null).1 ∈ liveSet initFreeList.tail) :=
  ⟨C3_no_double_alloc.1 [] init_jsvalue_slots initFreeList 0 0 rfl,
   C3_no_double_alloc.2 init_jsvalue_slots initFreeList JSVal.null tableInv_init
    (by decide)⟩

/-- C4 counterexample: the claim fails after an invalid release. From the
initialized table, release the (already free) slot 1 and then allocate a
value: the allocation returns handle 1 and resolves to that value; but a
second allocation — with handle 1 never released — silently reuses slot 1,
and resolving handle 1 now yields the second value instead of the first. -/
theorem C4_counterexample :
    (store_jsvalue (qjs_free_value 1 init_jsvalue_slots 1) JSVal.null).1 = 1 ∧
    load_jsvalue (store_jsvalue (qjs_free_value 1 init_jsvalue_slots 1) JSVal.null).2 1 =
      JSVal.null ∧
    load_jsvalue (store_jsvalue
      (store_jsvalue (qjs_free_value 1 init_jsvalue_slots 1) JSVal.null).2
      (JSVal.boolean true)).2 1 = JSVal.boolean true := by
  exact ⟨by decide, by decide, by decide⟩

/-- C4 (amended): from any consistent table state (one reached without
invalid releases), if `store_jsvalue v` returns a non-zero handle `h`,
then `load_jsvalue h` returns exactly `v`, and it continues to do so after
any further sequence of operations in which every release targets a
currently-live handle and `h` itself is never released. -/
theorem C4_resolve_roundtrip (t : Table) (F : List Nat) (v : JSVal) (h : Nat)
    (t2 : Table) (ops : List Op) (t' : Table) (F' : List Nat) (A' R' : Nat)
    (hInv : TableInv t F) (hst : store_jsvalue t v = (h, t2)) (hne : h ≠ 0)
    (hnf : Op.free h ∉ ops)
    (hrun : runTrace t2 F.tail 0 0 ops = some (t', F', A', R')) :
    load_jsvalue t2 h = v ∧ load_jsvalue t' h = v := by
  have hh : t.head ≠ 0 := by
    intro h0
    rw [store_jsvalue, if_pos h0] at hst
    exact hne (by rw [← (Prod.mk.injEq _ _ _ _).mp hst |>.1])
  cases F with
  | nil => exact absurd hInv.chain hh
  | cons f F2 =>
    obtain ⟨hpop, hInv2, hval⟩ := store_pop v hInv
    have h1 : (store_jsvalue t v).1 = h := by rw [hst]
    have h2 : (store_jsvalue t v).2 = t2 := by rw [hst]
    have hhf : h = f := by rw [← h1, hpop]
    subst hhf
    rw [h2] at hInv2 hval
    have hrange := hInv.range h (List.mem_cons_self h F2)
    have hnotF2 : h ∉ F2 := (List.nodup_cons.mp hInv.nodup).1
    have htail : (h :: F2).tail = F2 := rfl
    rw [htail] at hrun
    obtain ⟨_, _, hval'⟩ := runTrace_keeps_live ops t2 F2 0 0 t' F' A' R' h v
      hInv2 hrange.1 hrange.2 hnotF2 hval hnf hrun
    have hload : ∀ (u : Table), u.val h = v → load_jsvalue u h = v := by
      intro u hu
      rw [load_jsvalue, if_neg (by omega)]
      exact hu
    exact ⟨hload t2 hval, hload t' hval'⟩

/-- C4 witness: allocating `null` in the freshly initialized table returns
handle 1, and resolving it (immediately, and after the empty continuation)
yields `null`. -/
theorem C4_witness :
    load_jsvalue (store_jsvalue init_jsvalue_slots JSVal.null).2 1 = JSVal.null :=
  (C4_resolve_roundtrip init_jsvalue_slots initFreeList JSVal.null 1
    (store_jsvalue init_jsvalue_slots JSVal.null).2 []
    (store_jsvalue init_jsvalue_slots JSVal.null).2 initFreeList.tail 0 0
    tableInv_init rfl (by decide) (by simp) rfl).1

/-- C5: allocation pops the freelist head; when the freelist is empty the
reserved zero handle is returned as a recoverable failure (the table is
unchanged); a zero result happens exactly on exhaustion, so handle 0 is
never returned by a successful allocation; and slot 0 is reserved at
initialization, where `first_free_slot` starts at 1. -/
theorem C5_alloc_pops_head :
    (∀ (t : Table) (v : JSVal), t.head ≠ 0 → (store_jsvalue t v).1 = t.head) ∧
    (∀ (t : Table) (v : JSVal), t.head = 0 → store_jsvalue t v = (0, t)) ∧
    (∀ (t : Table) (F : List Nat) (v : JSVal), TableInv t F → F = [] →
      store_jsvalue t v = (0, t)) ∧
    (∀ (t : Table) (v : JSVal), (store_jsvalue t v).1 = 0 ↔ t.head = 0) ∧
    init_jsvalue_slots.head = 1 ∧ 0 ∉ initFreeList := by
  have hpop : ∀ (t : Table) (v : JSVal), t.head ≠ 0 →
      (store_jsvalue t v).1 = t.head := by
    intro t v hh
    simp [store_jsvalue, hh]
  have hfail : ∀ (t : Table) (v : JSVal), t.head = 0 →
      store_jsvalue t v = (0, t) := by
    intro t v hh
    simp [store_jsvalue, hh]
  refine ⟨hpop, hfail, ?_, ?_, rfl, ?_⟩
  · intro t F v hInv hF
    apply hfail
    have := hInv.chain
    rw [hF] at this
    exact this
  · intro t v
    constructor
    · intro h0
      by_contra hh
      rw [hpop t v hh] at h0
      exact hh h0
    · intro hh
      rw [hfail t v hh]
  · intro hmem
    have := List.mem_range'_1.mp hmem
    omega

/-- C5 witness: on the initialized table allocation returns the head
(slot 1); on an exhausted table (head 0, empty freelist) it returns the
zero handle with the table unchanged; and the zero-result equivalence is
exercised on the initialized table. -/
theorem C5_witness :
    (store_jsvalue init_jsvalue_slots JSVal.null).1 = init_jsvalue_slots.head ∧
    store_jsvalue ⟨fun _ => JSVal.undefined, fun _ => 0, 0⟩ JSVal.null =
      (0, ⟨fun _ => JSVal.undefined, fun _ => 0, 0⟩) ∧
    ((store_jsvalue init_jsvalue_slots JSVal.null).1 = 0 ↔
      init_jsvalue_slots.head = 0) :=
  ⟨C5_alloc_pops_head.1 init_jsvalue_slots JSVal.null (by decide),
   C5_alloc_pops_head.2.2.1 ⟨fun _ => JSVal.undefined, fun _ => 0, 0⟩ []
    JSVal.null ⟨rfl, List.nodup_nil, fun x hx => absurd hx (List.not_mem_nil x)⟩ rfl,
   C5_alloc_pops_head.2.2.2.1 init_jsvalue_slots JSVal.null⟩

/-- C6 counterexample: the reset-on-overflow half of the claim fails when
the 32-bit overflow check wraps. Fill the arena (offset reaches
`ARENA_SIZE`), then request `0xFFFFFFF8` bytes: the 8-byte-rounded size
overflows the remaining capacity (which is zero), yet the wrapped 32-bit
comparison fails, no reset happens, and the allocation is issued from
offset 4194304 instead of offset zero. -/
theorem C6_counterexample :
    (arena_alloc 0 4194304).2 = 4194304 ∧
    ARENA_SIZE < (arena_alloc 0 4194304).2 + align8 4294967288 ∧
    (arena_alloc (arena_alloc 0 4194304).2 4294967288).1 = 4194304 ∧
    (arena_alloc (arena_alloc 0 4194304).2 4294967288).1 ≠ 0 := by
  exact ⟨by decide, by decide, by decide, by decide⟩

/-- C6 (amended): every arena allocation returns an 8-byte-aligned offset
(and keeps the arena offset 8-byte aligned); and as long as the 32-bit sum
of the current offset and the rounded request size does not wrap
(`p + align8 size < 2^32`), the overflow behavior is as claimed: a request
whose rounded size exceeds the remaining capacity resets the arena to
empty and is issued from offset zero, and any other request bumps from the
current offset. With wrapping request sizes the overflow check can be
fooled (see the counterexample). -/
theorem C6_arena_aligned_reset :
    (∀ (p size : Nat), p % 8 = 0 →
      (arena_alloc p size).1 % 8 = 0 ∧ (arena_alloc p size).2 % 8 = 0) ∧
    (∀ (p size : Nat), p + align8 size < U32 →
      (ARENA_SIZE < p + align8 size → arena_alloc p size = (0, align8 size)) ∧
      (p + align8 size ≤ ARENA_SIZE → arena_alloc p size = (p, p + align8 size))) := by
  have hU : U32 = 4294967296 := rfl
  constructor
  · intro p size hp
    have hs := align8_mod8 size
    rw [arena_alloc_eq]
    split
    · constructor
      · simp
      · show align8 size % U32 % 8 = 0
        rw [hU]
        omega
    · constructor
      · exact hp
      · show (p + align8 size) % U32 % 8 = 0
        rw [hU]
        omega
  · intro p size hnw
    have hmod : (p + align8 size) % U32 = p + align8 size := Nat.mod_eq_of_lt hnw
    have hsmod : align8 size % U32 = align8 size :=
      Nat.mod_eq_of_lt (align8_lt_U32 size)
    constructor
    · intro hover
      rw [arena_alloc_eq, hmod, if_pos hover, hsmod]
    · intro hfits
      rw [arena_alloc_eq, hmod, if_neg (by omega)]

/-- C6 witness: a 5-byte request at offset 0 is rounded to 8 bytes, suits
the capacity, and both the returned offset and the new arena offset are
8-byte aligned; a 5-megabyte request at offset 8 overflows and is issued
from offset zero after a reset. -/
theorem C6_witness :
    ((arena_alloc 0 5).1 % 8 = 0 ∧ (arena_alloc 0 5).2 % 8 = 0) ∧
    arena_alloc 0 5 = (0, align8 5) ∧
    arena_alloc 8 5242880 = (0, align8 5242880) :=
  ⟨C6_arena_aligned_reset.1 0 5 rfl,
   by
    have h := (C6_arena_aligned_reset.2 0 5 (by decide)).2 (by decide)
    simpa using h,
   (C6_arena_aligned_reset.2 8 5242880 (by decide)).1 (by decide)⟩

/-- C7: the execution gate is reentrant and balanced. A lock by the
goroutine already holding the gate only increments the depth and returns
immediately; unlock decrements the depth and clears ownership (releasing
the mutex) exactly when the depth reaches zero; and any balanced nested
lock/unlock sequence by one goroutine — such as a callback re-entering
evaluation — runs to completion from the unowned state without ever
blocking on itself and leaves the gate unowned at depth zero. -/
theorem C7_gate_reentrant_balanced :
    (∀ (gid : Nat) (s : Gate), s.holder = gid →
      Runtime.lock gid s = some { holder := gid, depth := s.depth + 1 }) ∧
    (∀ (s : Gate), Runtime.unlock s =
      if s.depth - 1 = 0 then { holder := 0, depth := 0 }
      else { holder := s.holder, depth := s.depth - 1 }) ∧
    (∀ (gid : Nat) (ops : List LOp), gid ≠ 0 → BalancedOps ops →
      runGate gid { holder := 0, depth := 0 } ops =
        some { holder := 0, depth := 0 }) := by
  refine ⟨?_, fun s => rfl, ?_⟩
  · intro gid s hown
    simp [Runtime.lock, hown]
  · intro gid ops hg hbal
    exact runGate_balanced hbal gid hg

/-- C7 witness: goroutine 1 holding the gate at depth 1 re-locks without
blocking, and the doubly nested sequence lock-lock-unlock-unlock from the
unowned state finishes with the gate unowned at depth zero. -/
theorem C7_witness :
    Runtime.lock 1 { holder := 1, depth := 1 } = some { holder := 1, depth := 2 } ∧
    runGate 1 { holder := 0, depth := 0 } [LOp.lk, LOp.lk, LOp.un, LOp.un] =
      some { holder := 0, depth := 0 } :=
  ⟨C7_gate_reentrant_balanced.1 1 { holder := 1, depth := 1 } rfl,
   C7_gate_reentrant_balanced.2.2 1 [LOp.lk, LOp.lk, LOp.un, LOp.un] (by decide)
    (BalancedOps.wrap (BalancedOps.wrap BalancedOps.nil))⟩

/-- C8: a guest-initiated callback invocation whose function id is absent
from the dispatch table returns the freshly allocated undefined handle of
`qjs_new_undefined` — a handle that resolves to undefined — instead of
failing or crashing the guest call. -/
theorem C8_missing_callback_undefined (d : Dispatch) (t : Table)
    (ctxPtr funcID : Nat) (args : List Nat)
    (habs : d.callbacks funcID = none) :
    hostCallGo d t ctxPtr funcID args = qjs_new_undefined t ∧
    load_jsvalue (hostCallGo d t ctxPtr funcID args).2
      (hostCallGo d t ctxPtr funcID args).1 = JSVal.undefined := by
  have he : hostCallGo d t ctxPtr funcID args = qjs_new_undefined t := by
    simp [hostCallGo, habs]
  refine ⟨he, ?_⟩
  rw [he]
  by_cases hh : t.head = 0
  · simp [qjs_new_undefined, store_jsvalue, hh, load_jsvalue]
  · simp only [qjs_new_undefined, store_jsvalue, if_neg hh]
    simp only [load_jsvalue]
    split
    · rfl
    · simp

/-- C8 witness: the empty dispatch table with a stale id 7 on the
initialized table returns the fresh undefined handle, which resolves to
undefined. -/
theorem C8_witness :
    hostCallGo ⟨fun _ => none⟩ init_jsvalue_slots 1 7 [] =
      qjs_new_undefined init_jsvalue_slots ∧
    load_jsvalue (hostCallGo ⟨fun _ => none⟩ init_jsvalue_slots 1 7 []).2
      (hostCallGo ⟨fun _ => none⟩ init_jsvalue_slots 1 7 []).1 = JSVal.undefined :=
  C8_missing_callback_undefined ⟨fun _ => none⟩ init_jsvalue_slots 1 7 [] rfl

/-- C9: every public method of the `Value` type is total on the zero
`Value` (nil context) and returns its fixed default without touching the
guest machine or the execution gate: `IsUndefined` reports true, `String`
and `Typeof` return `undefined`, every other type predicate reports
false, `Bool` reports false, `Len` reports 0, and every fallible
conversion, property access or call returns the `nil value` error — in
each case with an empty gate-action trace (the gate is never acquired). -/
theorem C9_nil_value_total (env : BridgeEnv) (p : Nat) (prop method : String)
    (w this : GoValue) (idx : Nat) (args : List GoValue) :
    Value_IsUndefined env ⟨none, p⟩ = (true, []) ∧
    Value_IsNull env ⟨none, p⟩ = (false, []) ∧
    Value_IsBool env ⟨none, p⟩ = (false, []) ∧
    Value_IsNumber env ⟨none, p⟩ = (false, []) ∧
    Value_IsString env ⟨none, p⟩ = (false, []) ∧
    Value_IsSymbol env ⟨none, p⟩ = (false, []) ∧
    Value_IsObject env ⟨none, p⟩ = (false, []) ∧
    Value_IsArray env ⟨none, p⟩ = (false, []) ∧
    Value_IsFunction env ⟨none, p⟩ = (false, []) ∧
    Value_IsError env ⟨none, p⟩ = (false, []) ∧
    Value_IsBigInt env ⟨none, p⟩ = (false, []) ∧
    Value_IsDate env ⟨none, p⟩ = (false, []) ∧
    Value_IsPromise env ⟨none, p⟩ = (false, []) ∧
    Value_String env ⟨none, p⟩ = ("undefined", []) ∧
    Value_Bool env ⟨none, p⟩ = (false, []) ∧
    Value_Int32 env ⟨none, p⟩ = (Except.error "nil value", []) ∧
    Value_Int64 env ⟨none, p⟩ = (Except.error "nil value", []) ∧
    Value_Float64 env ⟨none, p⟩ = (Except.error "nil value", []) ∧
    Value_BigInt env ⟨none, p⟩ = (Except.error "nil value", []) ∧
    Value_JSONStringify env ⟨none, p⟩ = (Except.error "nil value", []) ∧
    Value_Bytes env ⟨none, p⟩ = (Except.error "nil value", []) ∧
    Value_Typeof env ⟨none, p⟩ = ("undefined", []) ∧
    Value_Get env ⟨none, p⟩ prop = (Except.error "nil value", []) ∧
    Value_Set env ⟨none, p⟩ prop w = (Except.error "nil value", []) ∧
    Value_Has env ⟨none, p⟩ prop = (false, []) ∧
    Value_Delete env ⟨none, p⟩ prop = (Except.error "nil value", []) ∧
    Value_GetIdx env ⟨none, p⟩ idx = (Except.error "nil value", []) ∧
    Value_SetIdx env ⟨none, p⟩ idx w = (Except.error "nil value", []) ∧
    Value_Len env ⟨none, p⟩ = (0, []) ∧
    Value_Call env ⟨none, p⟩ this args = (Except.error "nil value", []) ∧
    Value_CallMethod env ⟨none, p⟩ method args = (Except.error "nil value", []) ∧
    Value_New env ⟨none, p⟩ args = (Except.error "nil value", []) ∧
    Value_Instanceof env ⟨none, p⟩ w = (false, []) :=
  ⟨rfl, rfl, rfl, rfl, rfl, rfl, rfl, rfl, rfl, rfl, rfl, rfl, rfl, rfl, rfl,
   rfl, rfl, rfl, rfl, rfl, rfl, rfl, rfl, rfl, rfl, rfl, rfl, rfl, rfl, rfl,
   rfl, rfl, rfl⟩

/-- C10 counterexample: `qjs_alloc` can return the null pointer. With the
arena based at address 1024, a first request of `2^32 - 1024` bytes leaves
the arena offset at `2^32 - 1024`; a following 1024-byte request passes
the wrapped overflow check without a reset and the returned address
`base + offset` wraps to exactly 0, so `Bridge.Alloc` takes its
`WASM allocation failed` error branch. -/
theorem C10_counterexample :
    (qjs_alloc 1024 (qjs_alloc 1024 0 4294966272).2 1024).1 = 0 ∧
    BridgeAlloc 1024 (qjs_alloc 1024 0 4294966272).2 1024 =
      Except.error "WASM allocation failed" :=
  ⟨by decide, rfl⟩

/-- C10 (amended): provided the arena's base address is nonzero and the
arena fits below the 32-bit address space (`base + ARENA_SIZE < 2^32`),
`qjs_alloc` returns a nonzero pointer for every request whose rounded size
does not make the 32-bit offset arithmetic wrap
(`p + align8 size < 2^32`), so for such requests the
`WASM allocation failed` branch of `Bridge.Alloc` is unreachable. Requests
of wrapping size (about 4 GiB) can produce the null pointer (see the
counterexample). -/
theorem C10_alloc_nonnull (base p size : Nat) (hb : 0 < base)
    (hfit : base + ARENA_SIZE < U32) (hnw : p + align8 size < U32) :
    (qjs_alloc base p size).1 ≠ 0 ∧
    BridgeAlloc base p size = Except.ok (qjs_alloc base p size) := by
  have hA : ARENA_SIZE = 4194304 := rfl
  have hU : U32 = 4294967296 := rfl
  have hmod : (p + align8 size) % U32 = p + align8 size := Nat.mod_eq_of_lt hnw
  have hr : (qjs_alloc base p size).1 ≠ 0 := by
    show (base + (arena_alloc p size).1) % U32 ≠ 0
    rw [arena_alloc_eq, hmod]
    split
    · show (base + 0) % U32 ≠ 0
      rw [Nat.add_zero, Nat.mod_eq_of_lt (by omega)]
      omega
    · show (base + p) % U32 ≠ 0
      have hple : p ≤ ARENA_SIZE := by omega
      rw [Nat.mod_eq_of_lt (by omega)]
      omega
  refine ⟨hr, ?_⟩
  show (if (qjs_alloc base p size).1 = 0 then _ else _) = _
  rw [if_neg hr]

/-- C10 witness: with base 1024, offset 0 and a 5-byte request the
returned pointer is nonzero and `Bridge.Alloc` succeeds. -/
theorem C10_witness :
    (qjs_alloc 1024 0 5).1 ≠ 0 ∧
    BridgeAlloc 1024 0 5 = Except.ok (qjs_alloc 1024 0 5) :=
  C10_alloc_nonnull 1024 0 5 (by decide) (by decide) (by decide)
